import Mathlib

/-!
Shallow embedding of the kube-hc-monitor repository core:
the cleanup advisor (pkg/optimizer/optimizer.go) and the health
evaluator (internal/kubernetes/client.go, health package part).
Kubernetes API calls are modelled as explicit inputs: list calls become
Except-valued parameters, delete calls become a list of attempted
delete actions together with an outcome oracle, and wall-clock time is
an explicit Int parameter counted in nanoseconds.
-/

namespace KubeHC

/-- volume.ConfigMap field of a pod volume (ConfigMapVolumeSource); only
the referenced ConfigMap name is relevant to the embedded code. -/
structure ConfigMapVolumeSource where
  name : String
deriving DecidableEq, Repr

/-- A pod volume; configMap is the optional ConfigMapVolumeSource pointer. -/
structure Volume where
  configMap : Option ConfigMapVolumeSource
deriving DecidableEq, Repr

/-- env.ValueFrom.ConfigMapKeyRef selector; only the name is relevant. -/
structure ConfigMapKeySelector where
  name : String
deriving DecidableEq, Repr

/-- env.ValueFrom pointer of an environment variable. -/
structure EnvVarSource where
  configMapKeyRef : Option ConfigMapKeySelector
deriving DecidableEq, Repr

/-- A container environment variable; valueFrom is an optional pointer. -/
structure EnvVar where
  valueFrom : Option EnvVarSource
deriving DecidableEq, Repr

/-- A pod spec container; only the env list is relevant to the embedded code. -/
structure Container where
  env : List EnvVar
deriving DecidableEq, Repr

/-- Pod phase (v1.PodPhase). -/
inductive PodPhase where
  | running
  | pending
  | succeeded
  | failed
  | unknown
deriving DecidableEq, Repr

/-- String form of a pod phase, as printed by the Go %s verb. -/
def PodPhase.str : PodPhase → String
  | .running => "Running"
  | .pending => "Pending"
  | .succeeded => "Succeeded"
  | .failed => "Failed"
  | .unknown => "Unknown"

/-- containerStatus.State.Waiting, keeping only the Reason field. -/
structure ContainerStateWaiting where
  reason : String
deriving DecidableEq, Repr

/-- containerStatus.State; waiting is an optional pointer. -/
structure ContainerState where
  waiting : Option ContainerStateWaiting
deriving DecidableEq, Repr

/-- A container status: restart count plus current state. -/
structure ContainerStatus where
  restartCount : Int
  state : ContainerState
deriving DecidableEq, Repr

/-- A pod, with exactly the fields the embedded functions read.
creationTimestamp is nanoseconds since the epoch. -/
structure Pod where
  ns : String
  name : String
  nodeName : String
  phase : PodPhase
  creationTimestamp : Int
  volumes : List Volume
  containers : List Container
  containerStatuses : List ContainerStatus
deriving DecidableEq, Repr

/-- A ConfigMap object: namespace, name, creation timestamp (ns since epoch). -/
structure ConfigMap where
  ns : String
  name : String
  creationTimestamp : Int
deriving DecidableEq, Repr

/-! ## Cleanup advisor (pkg/optimizer/optimizer.go) -/

/-- CleanupRecommendation record; age is a duration in nanoseconds. -/
structure CleanupRecommendation where
  resourceType : String
  ns : String
  name : String
  reason : String
  age : Int
deriving DecidableEq, Repr

/-- A delete API call issued by cleanup, identified by kind/namespace/name. -/
structure DeleteAction where
  resourceType : String
  ns : String
  name : String
deriving DecidableEq, Repr

/-- The composite map key used by the Go code: namespace ++ slash ++ name. -/
def cmKey (ns name : String) : String := ns ++ "/" ++ name

/-- Concatenation of the per-element lists produced by g, in order. -/
def emitAll {α β : Type} (g : α → List β) : List α → List β
  | [] => []
  | x :: xs => g x ++ emitAll g xs

/-- ConfigMap names referenced by one pod: volume mounts whose configMap
pointer is set, then env vars whose valueFrom.configMapKeyRef is set,
exactly the two loops of the Go code. -/
def podReferencedConfigMapNames (p : Pod) : List String :=
  p.volumes.filterMap (fun v => v.configMap.map (fun s => s.name)) ++
    emitAll (fun c => c.env.filterMap (fun e =>
      e.valueFrom.bind (fun vf => vf.configMapKeyRef.map (fun r => r.name)))) p.containers

/-- Keys inserted into the configMapsInUse map by one pod: each referenced
name keyed under the namespace of the referencing pod. -/
def podConfigMapKeys (p : Pod) : List String :=
  (podReferencedConfigMapNames p).map (cmKey p.ns)

/-- The configMapsInUse map of the Go code, as the list of inserted keys;
map membership corresponds to list membership. -/
def configMapsInUse (pods : List Pod) : List String :=
  emitAll podConfigMapKeys pods

/-- 7 days, the stale-pod retention threshold, in nanoseconds (7*24*time.Hour). -/
def sevenDays : Int := 7 * 24 * 3600 * 1000000000

/-- The recommendation built for an unused ConfigMap. -/
def mkConfigMapRec (now : Int) (cm : ConfigMap) : CleanupRecommendation :=
  { resourceType := "ConfigMap", ns := cm.ns, name := cm.name,
    reason := "Not referenced by any pod", age := now - cm.creationTimestamp }

/-- The recommendation built for a stale Failed/Succeeded pod. -/
def mkPodRec (now : Int) (p : Pod) : CleanupRecommendation :=
  { resourceType := "Pod", ns := p.ns, name := p.name,
    reason := "Failed/Completed pod older than 7 days (status: " ++ p.phase.str ++ ")",
    age := now - p.creationTimestamp }

/-- State threaded through the two cleanup loops: the local recommendations
slice, the delete calls attempted so far, the log lines, and the list the
function finally returns. -/
structure CleanupRun where
  recommendations : List CleanupRecommendation
  deletes : List DeleteAction
  logs : List String
  returned : List CleanupRecommendation
deriving DecidableEq, Repr

/-- Log line produced by one delete attempt, from the outcome oracle. -/
def deleteLogLine (deleteErr : DeleteAction → Option String) (a : DeleteAction) : String :=
  match deleteErr a with
  | some e => "Failed to delete " ++ a.resourceType ++ " " ++ cmKey a.ns a.name ++ ": " ++ e
  | none => "Deleted " ++ a.resourceType ++ " " ++ cmKey a.ns a.name

/-- One iteration of the unused-ConfigMap loop: if the key is absent from
configMapsInUse, append a recommendation, and when not in dry-run mode
attempt the delete (its error is only logged). -/
def configMapCleanupStep (dryRun : Bool) (now : Int)
    (deleteErr : DeleteAction → Option String) (inUse : List String)
    (r : CleanupRun) (cm : ConfigMap) : CleanupRun :=
  if inUse.contains (cmKey cm.ns cm.name) then r
  else
    let r := { r with recommendations := r.recommendations ++ [mkConfigMapRec now cm] }
    if dryRun then r
    else
      let a : DeleteAction := { resourceType := "ConfigMap", ns := cm.ns, name := cm.name }
      { r with deletes := r.deletes ++ [a], logs := r.logs ++ [deleteLogLine deleteErr a] }

/-- One iteration of the stale-pod loop: Failed or Succeeded pods older than
seven days get a recommendation, and when not in dry-run mode a delete
attempt (its error is only logged). -/
def podCleanupStep (dryRun : Bool) (now : Int)
    (deleteErr : DeleteAction → Option String)
    (r : CleanupRun) (p : Pod) : CleanupRun :=
  if p.phase == PodPhase.failed || p.phase == PodPhase.succeeded then
    if now - p.creationTimestamp > sevenDays then
      let r := { r with recommendations := r.recommendations ++ [mkPodRec now p] }
      if dryRun then r
      else
        let a : DeleteAction := { resourceType := "Pod", ns := p.ns, name := p.name }
        { r with deletes := r.deletes ++ [a], logs := r.logs ++ [deleteLogLine deleteErr a] }
    else r
  else r

/-- Body of CleanupUnusedResources after both list calls succeeded: build the
in-use key set, run the ConfigMap loop then the pod loop, and return the
empty list (the final return statement of the Go function returns a fresh
empty slice, not the computed recommendations). -/
def CleanupUnusedResourcesCore (configMaps : List ConfigMap) (pods : List Pod)
    (dryRun : Bool) (now : Int)
    (deleteErr : DeleteAction → Option String) : CleanupRun :=
  let inUse := configMapsInUse pods
  let r0 : CleanupRun := { recommendations := [], deletes := [], logs := [], returned := [] }
  let r1 := configMaps.foldl (configMapCleanupStep dryRun now deleteErr inUse) r0
  let r2 := pods.foldl (podCleanupStep dryRun now deleteErr) r1
  { r2 with returned := [] }

/-- CleanupUnusedResources: the two list calls may fail, in which case the
function aborts with a wrapped error; otherwise it runs the core body. -/
def CleanupUnusedResources (configMapList : Except String (List ConfigMap))
    (podList : Except String (List Pod)) (dryRun : Bool) (now : Int)
    (deleteErr : DeleteAction → Option String) : Except String CleanupRun :=
  match configMapList with
  | .error e => .error ("failed to list configmaps: " ++ e)
  | .ok cms =>
    match podList with
    | .error e => .error ("failed to list pods: " ++ e)
    | .ok pods => .ok (CleanupUnusedResourcesCore cms pods dryRun now deleteErr)

/-- The cluster objects cleanup can touch. -/
structure ClusterState where
  configMaps : List ConfigMap
  pods : List Pod
deriving DecidableEq, Repr

/-- Effect of one successful delete call on the cluster state. -/
def applyDelete (s : ClusterState) (a : DeleteAction) : ClusterState :=
  if a.resourceType == "ConfigMap" then
    { s with configMaps :=
        s.configMaps.filter (fun cm => !(cm.ns == a.ns && cm.name == a.name)) }
  else if a.resourceType == "Pod" then
    { s with pods := s.pods.filter (fun p => !(p.ns == a.ns && p.name == a.name)) }
  else s

/-- Effect of a sequence of delete attempts: only the ones whose outcome
oracle reports success change the state. -/
def applyDeletes (s : ClusterState) (deleteErr : DeleteAction → Option String) :
    List DeleteAction → ClusterState
  | [] => s
  | a :: rest =>
    applyDeletes (if (deleteErr a).isNone then applyDelete s a else s) deleteErr rest

/-! ## Spec-side cleanup predicates (from the spec wording in section 4.4) -/

/-- The pod mounts the named ConfigMap through some volume. -/
def podMountsConfigMap (p : Pod) (name : String) : Bool :=
  p.volumes.any (fun v =>
    match v.configMap with
    | some src => src.name == name
    | none => false)

/-- The pod references the named ConfigMap through an env-var source. -/
def podEnvRefsConfigMap (p : Pod) (name : String) : Bool :=
  p.containers.any (fun c => c.env.any (fun e =>
    match e.valueFrom with
    | some vf =>
      match vf.configMapKeyRef with
      | some r => r.name == name
      | none => false
    | none => false))

/-- Spec wording: a ConfigMap is unused iff no pod in its namespace
references it via volume mount or environment-variable source. -/
def configMapUnusedSpec (pods : List Pod) (cm : ConfigMap) : Bool :=
  !(pods.any (fun p =>
    p.ns == cm.ns && (podMountsConfigMap p cm.name || podEnvRefsConfigMap p cm.name)))

/-- Spec wording: a pod is stale iff its phase is Failed or Succeeded and
its age exceeds the seven-day retention threshold. -/
def podStaleSpec (now : Int) (p : Pod) : Bool :=
  (p.phase == PodPhase.failed || p.phase == PodPhase.succeeded) &&
    (now - p.creationTimestamp > sevenDays)

/-- A string contains no slash character. -/
def slashFree (s : String) : Bool := !(s.data.contains ('/'))

/-! ## Health evaluator data model (internal health package) -/

/-- A node condition: type and status, both as their Kubernetes strings. -/
structure NodeCondition where
  condType : String
  condStatus : String
deriving DecidableEq, Repr

/-- A node: name, condition set, and allocatable quantities in milli-units. -/
structure Node where
  name : String
  conditions : List NodeCondition
  allocatableMilli : List Int
deriving DecidableEq, Repr

/-- NodeHealthStatus of the health package. -/
structure NodeHealthStatus where
  totalNodes : Nat
  readyNodes : Nat
  memoryPressureNodes : Nat
  diskPressureNodes : Nat
  pidPressureNodes : Nat
  networkUnavailableNodes : Nat
  nodeConditions : List (String × List String)
  averageLoad : ℚ
deriving DecidableEq, Repr

/-- PodHealthStatus of the health package. -/
structure PodHealthStatus where
  totalPods : Nat
  runningPods : Nat
  pendingPods : Nat
  succeededPods : Nat
  failedPods : Nat
  unknownPods : Nat
  restartingPods : Nat
  podsPerNode : List (String × Nat)
  crashLoopingPods : List String
deriving DecidableEq, Repr

/-- ControlPlaneStatus of the health package; latency in whole milliseconds. -/
structure ControlPlaneStatus where
  apiServerHealthy : Bool
  controllerHealthy : Bool
  schedulerHealthy : Bool
  etcdHealthy : Bool
  coreDNSHealthy : Bool
  overallHealthy : Bool
  apiServerLatency : Int
deriving DecidableEq, Repr

/-- NetworkStatus of the health package. -/
structure NetworkStatus where
  cniHealthy : Bool
  dnsResolutionOK : Bool
  serviceEndpointsHealthy : Bool
  ingressHealthy : Bool
  networkPoliciesCount : Nat
deriving DecidableEq, Repr

/-- ResourceUsageStatus of the health package; percentages as rationals. -/
structure ResourceUsageStatus where
  clusterCPUUsage : ℚ
  clusterMemoryUsage : ℚ
  clusterStorageUsage : ℚ
  highCPUNodes : List String
  highMemoryNodes : List String
  lowResourceNodes : List String
  highUsageNamespaces : List String
deriving DecidableEq, Repr

/-- The all-zero ResourceUsageStatus a fresh ClusterHealth starts from. -/
def emptyResourceUsage : ResourceUsageStatus :=
  { clusterCPUUsage := 0, clusterMemoryUsage := 0, clusterStorageUsage := 0,
    highCPUNodes := [], highMemoryNodes := [], lowResourceNodes := [],
    highUsageNamespaces := [] }

/-- ComponentStatus of the health package. -/
structure ComponentStatus where
  name : String
  healthy : Bool
  message : String
  version : String
deriving DecidableEq, Repr

/-- DeploymentStatus of the health package. -/
structure DeploymentStatus where
  totalDeployments : Nat
  healthyDeployments : Nat
  progressingDeployments : Nat
  failedDeployments : Nat
deriving DecidableEq, Repr

/-- ServiceStatus of the health package. -/
structure ServiceStatus where
  totalServices : Nat
  servicesWithEndpoints : Nat
  servicesWithoutEndpoints : Nat
deriving DecidableEq, Repr

/-- NamespaceHealth of the health package. -/
structure NamespaceHealth where
  podStatus : PodHealthStatus
  deploymentStatus : DeploymentStatus
  serviceStatus : ServiceStatus
  resourceUsage : ResourceUsageStatus
  healthScore : Int
deriving DecidableEq, Repr

/-- HealthIssue of the health package; timestamp in nanoseconds. -/
structure HealthIssue where
  severity : String
  resource : String
  ns : String
  name : String
  message : String
  timestamp : Int
  suggestion : String
deriving DecidableEq, Repr

/-- ClusterHealth, the result record of GetClusterHealth. -/
structure ClusterHealth where
  timestamp : Int
  nodeStatus : NodeHealthStatus
  podStatus : PodHealthStatus
  controlPlaneStatus : ControlPlaneStatus
  networkStatus : NetworkStatus
  resourceUsage : ResourceUsageStatus
  componentStatuses : List ComponentStatus
  namespaceHealth : List (String × NamespaceHealth)
  healthScore : Int
  issues : List HealthIssue
deriving DecidableEq, Repr

/-! ## checkNodeHealth -/

/-- One iteration of the condition loop inside checkNodeHealth: each
condition with status True is recorded and bumps the matching counter. -/
def nodeConditionStep (s : NodeHealthStatus) (c : NodeCondition) : NodeHealthStatus :=
  if c.condStatus == "True" then
    if c.condType == "Ready" then { s with readyNodes := s.readyNodes + 1 }
    else if c.condType == "MemoryPressure" then
      { s with memoryPressureNodes := s.memoryPressureNodes + 1 }
    else if c.condType == "DiskPressure" then
      { s with diskPressureNodes := s.diskPressureNodes + 1 }
    else if c.condType == "PIDPressure" then
      { s with pidPressureNodes := s.pidPressureNodes + 1 }
    else if c.condType == "NetworkUnavailable" then
      { s with networkUnavailableNodes := s.networkUnavailableNodes + 1 }
    else s
  else s

/-- The condition-type strings recorded for one node (status True only). -/
def nodeTrueConditions (n : Node) : List String :=
  ((n.conditions.filter (fun c => c.condStatus == "True")).map (fun c => c.condType))

/-- One iteration of the node loop of checkNodeHealth. -/
def checkNodeHealthStep (s : NodeHealthStatus) (n : Node) : NodeHealthStatus :=
  let s := n.conditions.foldl nodeConditionStep s
  { s with nodeConditions := s.nodeConditions ++ [(n.name, nodeTrueConditions n)] }

/-- Total load summed over all allocatable quantities of all nodes, each
taken as milli-value divided by 1000. -/
def totalAllocatableLoad (nodes : List Node) : ℚ :=
  (nodes.map (fun n => ((n.allocatableMilli.map (fun m => (m : ℚ) / 1000)).sum))).sum

/-- checkNodeHealth after a successful node list call. -/
def checkNodeHealthCore (nodes : List Node) : NodeHealthStatus :=
  let s0 : NodeHealthStatus :=
    { totalNodes := nodes.length, readyNodes := 0, memoryPressureNodes := 0,
      diskPressureNodes := 0, pidPressureNodes := 0, networkUnavailableNodes := 0,
      nodeConditions := [], averageLoad := 0 }
  let s := nodes.foldl checkNodeHealthStep s0
  if nodes.length > 0 then
    { s with averageLoad := totalAllocatableLoad nodes / (nodes.length : ℚ) }
  else s

/-! ## checkPodHealth -/

/-- Increment of the per-node pod counter map, with Go map semantics
modelled on an association list. -/
def bumpNodeCount (m : List (String × Nat)) (k : String) : List (String × Nat) :=
  if m.any (fun kv => kv.1 == k) then
    m.map (fun kv => if kv.1 == k then (kv.1, kv.2 + 1) else kv)
  else m ++ [(k, 1)]

/-- One iteration of the container-status loop of checkPodHealth: the
restarting counter is bumped once per container status with restart count
above 5, and one crash-loop entry is appended per container status waiting
with reason CrashLoopBackOff. -/
def podContainerStep (podKey : String) (s : PodHealthStatus)
    (cs : ContainerStatus) : PodHealthStatus :=
  let s := if cs.restartCount > 5 then { s with restartingPods := s.restartingPods + 1 } else s
  match cs.state.waiting with
  | some w =>
    if w.reason == "CrashLoopBackOff" then
      { s with crashLoopingPods := s.crashLoopingPods ++ [podKey] }
    else s
  | none => s

/-- One iteration of the pod loop of checkPodHealth. -/
def checkPodHealthStep (s : PodHealthStatus) (p : Pod) : PodHealthStatus :=
  let s :=
    if p.nodeName == "" then s
    else { s with podsPerNode := bumpNodeCount s.podsPerNode p.nodeName }
  let s :=
    match p.phase with
    | .running => { s with runningPods := s.runningPods + 1 }
    | .pending => { s with pendingPods := s.pendingPods + 1 }
    | .succeeded => { s with succeededPods := s.succeededPods + 1 }
    | .failed => { s with failedPods := s.failedPods + 1 }
    | .unknown => { s with unknownPods := s.unknownPods + 1 }
  p.containerStatuses.foldl (podContainerStep (cmKey p.ns p.name)) s

/-- checkPodHealth after a successful pod list call. -/
def checkPodHealthCore (pods : List Pod) : PodHealthStatus :=
  let s0 : PodHealthStatus :=
    { totalPods := pods.length, runningPods := 0, pendingPods := 0,
      succeededPods := 0, failedPods := 0, unknownPods := 0, restartingPods := 0,
      podsPerNode := [], crashLoopingPods := [] }
  pods.foldl checkPodHealthStep s0

/-! ## checkControlPlaneHealth -/

/-- The first list starts the second one. -/
def startsWithChars : List Char → List Char → Bool
  | [], _ => true
  | _ :: _, [] => false
  | a :: as, b :: bs => a == b && startsWithChars as bs

/-- The first list occurs as a contiguous run inside the second one. -/
def hasSubstrChars (sub : List Char) : List Char → Bool
  | [] => sub.isEmpty
  | b :: bs => startsWithChars sub (b :: bs) || hasSubstrChars sub bs

/-- strings.Contains of the Go standard library, on the char lists. -/
def stringContains (s sub : String) : Bool := hasSubstrChars sub.data s.data

/-- checkControlPlaneHealth. The api-server probe is modelled by its outcome
(call succeeded) and its wall-clock duration in nanoseconds; the kube-system
pod list call may fail, in which case the function returns the error after
having already filled the api-server fields (partial data the caller keeps).
The result is the written status together with the returned error. -/
def checkControlPlaneHealth (apiCallOk : Bool) (apiCallDurationNs : Int)
    (kubeSystemPods : Except String (List Pod)) :
    ControlPlaneStatus × Option String :=
  let s0 : ControlPlaneStatus :=
    { apiServerHealthy := apiCallOk && apiCallDurationNs < 1000000000,
      controllerHealthy := false, schedulerHealthy := false, etcdHealthy := false,
      coreDNSHealthy := false, overallHealthy := false,
      apiServerLatency := apiCallDurationNs / 1000000 }
  match kubeSystemPods with
  | .error e => (s0, some ("failed to list kube-system pods: " ++ e))
  | .ok pods =>
    let unhealthyNamed (sub : String) : Bool :=
      pods.any (fun p =>
        stringContains p.name sub && !(p.phase == PodPhase.running))
    let s :=
      { s0 with
        controllerHealthy := !(unhealthyNamed ("kube-controller-manager")),
        schedulerHealthy := !(unhealthyNamed ("kube-scheduler")),
        etcdHealthy := !(unhealthyNamed ("etcd")),
        coreDNSHealthy := !(unhealthyNamed ("coredns")) }
    ({ s with overallHealthy := s.apiServerHealthy && s.controllerHealthy &&
        s.schedulerHealthy && s.etcdHealthy && s.coreDNSHealthy }, none)

/-! ## checkNetworkHealth -/

/-- A service: namespace, name, label selector. -/
structure Service where
  ns : String
  name : String
  selector : List (String × String)
deriving DecidableEq, Repr

/-- An apps/v1 deployment as read by the ingress check: Spec.Replicas is an
optional pointer, Status.ReadyReplicas a plain count. -/
structure Deployment where
  replicas : Option Int
  readyReplicas : Int
deriving DecidableEq, Repr

/-- The service-endpoint loop: skip selector-less services; a failed
endpoints get or an endpoints object with no subsets makes the check false
and breaks the loop. endpointsOf gives each get call result as the number
of subsets. -/
def serviceEndpointsLoop (endpointsOf : String → String → Except String Nat) :
    List Service → Bool
  | [] => true
  | svc :: rest =>
    if svc.selector.isEmpty then serviceEndpointsLoop endpointsOf rest
    else
      match endpointsOf svc.ns svc.name with
      | .error _ => false
      | .ok n => if n == 0 then false else serviceEndpointsLoop endpointsOf rest

/-- The ingress-controller loop: each deployment in turn has its Replicas
pointer dereferenced in the comparison ReadyReplicas < Replicas; none
models a nil pointer, whose dereference panics (result none). A deployment
failing the comparison breaks the loop with result false, so deployments
after it are never examined. -/
def ingressLoop : List Deployment → Option Bool
  | [] => some true
  | d :: rest =>
    match d.replicas with
    | none => none
    | some r => if d.readyReplicas < r then some false else ingressLoop rest

/-- All list/get call outcomes checkNetworkHealth consumes. -/
structure NetworkInputs where
  cniPods : Except String (List Pod)
  corednsPods : Except String (List Pod)
  services : Except String (List Service)
  endpointsOf : String → String → Except String Nat
  ingressControllers : Except String (List Deployment)
  networkPolicyCount : Except String Nat

/-- checkNetworkHealth. Every API failure is logged and mapped to an
unhealthy flag (never an error return); the only way the function fails to
complete is the nil dereference in the ingress loop, modelled as none. -/
def checkNetworkHealth (inp : NetworkInputs) : Option NetworkStatus :=
  let cni :=
    match inp.cniPods with
    | .error _ => false
    | .ok pods => pods.all (fun p => p.phase == PodPhase.running)
  let dns :=
    match inp.corednsPods with
    | .error _ => false
    | .ok pods => pods.all (fun p => p.phase == PodPhase.running)
  let svcHealthy :=
    match inp.services with
    | .error _ => false
    | .ok svcs => serviceEndpointsLoop inp.endpointsOf svcs
  let ingress? :=
    match inp.ingressControllers with
    | .error _ => some false
    | .ok deps => if deps.isEmpty then some true else ingressLoop deps
  match ingress? with
  | none => none
  | some ingressHealthy =>
    let npc :=
      match inp.networkPolicyCount with
      | .error _ => 0
      | .ok n => n
    some { cniHealthy := cni, dnsResolutionOK := dns,
           serviceEndpointsHealthy := svcHealthy, ingressHealthy := ingressHealthy,
           networkPoliciesCount := npc }

/-! ## Spec-modelled health scoring

The bodies of calculateHealthScore, identifyHealthIssues,
checkResourceUsage, checkComponentStatuses and checkNamespaceHealth are
not among the available sources (the health file breaks off after
checkNetworkHealth); the three missing checks are therefore taken as
outcome parameters, and the scoring and issue passes are modelled from
the spec. -/

/-- The pressure condition names of the spec node formula. -/
def pressureConditionNames : List String :=
  ["MemoryPressure", "DiskPressure", "PIDPressure", "NetworkUnavailable"]

/-- Number of nodes carrying any pressure condition, read off the recorded
per-node condition lists. -/
def nodesWithPressure (s : NodeHealthStatus) : Nat :=
  ((s.nodeConditions.filter
    (fun kv => kv.2.any (fun c => pressureConditionNames.contains c))).length)

/-- Modelled from the spec: node sub-score, 100 times ready over total,
minus 5 per node with any pressure condition, floored at 0; 100 when the
cluster has no nodes. -/
def nodeSubScore (s : NodeHealthStatus) : ℚ :=
  if s.totalNodes == 0 then 100
  else
    max 0 (100 * (s.readyNodes : ℚ) / (s.totalNodes : ℚ)
      - 5 * (nodesWithPressure s : ℚ))

/-- Modelled from the spec: pod sub-score, 100 times running over total,
minus 2 per crash-looping entry and 1 per recorded restart exceedance,
floored at 0; 100 when the cluster has no pods. -/
def podSubScore (s : PodHealthStatus) : ℚ :=
  if s.totalPods == 0 then 100
  else
    max 0 (100 * (s.runningPods : ℚ) / (s.totalPods : ℚ)
      - 2 * (s.crashLoopingPods.length : ℚ) - (s.restartingPods : ℚ))

/-- Number of the five control-plane components reported healthy. -/
def healthyComponentCount (s : ControlPlaneStatus) : Nat :=
  (if s.apiServerHealthy then 1 else 0) + (if s.controllerHealthy then 1 else 0) +
    (if s.schedulerHealthy then 1 else 0) + (if s.etcdHealthy then 1 else 0) +
    (if s.coreDNSHealthy then 1 else 0)

/-- Modelled from the spec: control-plane sub-score, 100 when everything is
healthy, otherwise 100 times healthy components over 5, reduced by at most
min(20, latency over 50) and floored at 0. -/
def controlPlaneSubScore (s : ControlPlaneStatus) : ℚ :=
  if s.overallHealthy then 100
  else
    max 0 (100 * (healthyComponentCount s : ℚ) / 5
      - min 20 ((s.apiServerLatency : ℚ) / 50))

/-- Modelled from the spec: network sub-score, 100 times true checks over 4. -/
def networkSubScore (s : NetworkStatus) : ℚ :=
  let t := (if s.cniHealthy then 1 else 0) + (if s.dnsResolutionOK then 1 else 0) +
    (if s.serviceEndpointsHealthy then 1 else 0) + (if s.ingressHealthy then 1 else 0)
  100 * (t : ℚ) / 4

/-- Modelled from the spec: resource sub-score, 100 minus twice the cpu and
memory percentages above 80, floored at 0. -/
def resourceSubScore (s : ResourceUsageStatus) : ℚ :=
  max 0 (100 - max 0 (s.clusterCPUUsage - 80) * 2
    - max 0 (s.clusterMemoryUsage - 80) * 2)

/-- Modelled from the spec: calculateHealthScore, the weighted composite
0.30 node + 0.25 pod + 0.25 control plane + 0.10 network + 0.10 resource,
rounded to an integer and clamped to the interval from 0 to 100. -/
def calculateHealthScore (h : ClusterHealth) : Int :=
  let weighted : ℚ :=
    30 / 100 * nodeSubScore h.nodeStatus + 25 / 100 * podSubScore h.podStatus +
      25 / 100 * controlPlaneSubScore h.controlPlaneStatus +
      10 / 100 * networkSubScore h.networkStatus +
      10 / 100 * resourceSubScore h.resourceUsage
  min 100 (max 0 (round weighted))

/-- Modelled from the spec: identifyHealthIssues, a deterministic pass over
the computed statuses; every sub-check below its maximal contribution
emits an issue whose severity follows the magnitude rules of the spec. -/
def identifyHealthIssues (h : ClusterHealth) : List HealthIssue :=
  (if h.nodeStatus.readyNodes < h.nodeStatus.totalNodes ∨ 0 < nodesWithPressure h.nodeStatus then
    [{ severity := "critical", resource := "Node", ns := "", name := "",
       message := "nodes not ready or under pressure", timestamp := h.timestamp,
       suggestion := "inspect node conditions" }]
  else []) ++
  (if !h.podStatus.crashLoopingPods.isEmpty then
    [{ severity := "critical", resource := "Pod", ns := "", name := "",
       message := "pods in CrashLoopBackOff", timestamp := h.timestamp,
       suggestion := "inspect crash-looping pods" }]
  else []) ++
  (if 0 < h.podStatus.restartingPods then
    [{ severity := "warning", resource := "Pod", ns := "", name := "",
       message := "containers with elevated restart counts", timestamp := h.timestamp,
       suggestion := "inspect restarting pods" }]
  else []) ++
  (if !h.controlPlaneStatus.overallHealthy then
    [{ severity := "warning", resource := "ControlPlane", ns := "", name := "",
       message := "control plane degraded", timestamp := h.timestamp,
       suggestion := "inspect control-plane components" }]
  else []) ++
  (if 80 < h.resourceUsage.clusterCPUUsage ∨ 80 < h.resourceUsage.clusterMemoryUsage then
    [{ severity := "info", resource := "Cluster", ns := "", name := "",
       message := "high resource usage", timestamp := h.timestamp,
       suggestion := "consider adding capacity" }]
  else [])

/-! ## GetClusterHealth -/

/-- Every API outcome GetClusterHealth consumes, one field per call made by
it or by a sub-check. The three checks whose bodies are missing from the
sources appear as their written-back results. -/
structure HealthInputs where
  nodes : Except String (List Node)
  pods : Except String (List Pod)
  apiCallOk : Bool
  apiCallDurationNs : Int
  kubeSystemPods : Except String (List Pod)
  network : NetworkInputs
  resourceUsageRes : Except String ResourceUsageStatus
  componentStatusesRes : Except String (List ComponentStatus)
  namespaceHealthRes : Except String (List (String × NamespaceHealth))

/-- GetClusterHealth. A failed node or pod list aborts with a wrapped error
and no result; a failing control-plane, network, resource-usage, component
or namespace check is only logged and leaves the zero-valued (or, for the
control plane, partially written) status in place. The outer none models
the crash of the whole call when checkNetworkHealth panics. -/
def GetClusterHealth (inp : HealthInputs) (now : Int) :
    Option (Except String ClusterHealth) :=
  match inp.nodes with
  | .error e => some (.error ("node health check failed: failed to list nodes: " ++ e))
  | .ok nodes =>
    match inp.pods with
    | .error e => some (.error ("pod health check failed: failed to list pods: " ++ e))
    | .ok pods =>
      let nodeStatus := checkNodeHealthCore nodes
      let podStatus := checkPodHealthCore pods
      let cpStatus :=
        (checkControlPlaneHealth inp.apiCallOk inp.apiCallDurationNs inp.kubeSystemPods).1
      match checkNetworkHealth inp.network with
      | none => none
      | some netStatus =>
        let resourceUsage :=
          match inp.resourceUsageRes with
          | .ok r => r
          | .error _ => emptyResourceUsage
        let componentStatuses :=
          match inp.componentStatusesRes with
          | .ok cs => cs
          | .error _ => []
        let namespaceHealth :=
          match inp.namespaceHealthRes with
          | .ok nh => nh
          | .error _ => []
        let h0 : ClusterHealth :=
          { timestamp := now, nodeStatus := nodeStatus, podStatus := podStatus,
            controlPlaneStatus := cpStatus, networkStatus := netStatus,
            resourceUsage := resourceUsage, componentStatuses := componentStatuses,
            namespaceHealth := namespaceHealth, healthScore := 0, issues := [] }
        let h1 := { h0 with issues := identifyHealthIssues h0 }
        some (.ok { h1 with healthScore := calculateHealthScore h1 })

/-! ## Resource optimizer (pkg/optimizer/optimizer.go) -/

/-- An optimization recommendation. -/
structure Recommendation where
  recType : String
  description : String
  potentialSaving : ℚ
deriving DecidableEq, Repr

/-- The optimization report: total potential savings and recommendations. -/
structure OptimizationReport where
  potentialSavings : ℚ
  recommendations : List Recommendation
deriving DecidableEq, Repr

/-- GenerateOptimizationReport: the Go method ignores the cluster entirely
and returns a report with zero savings and an empty recommendation list. -/
def GenerateOptimizationReport (_s : ClusterState) : Except String OptimizationReport :=
  .ok { potentialSavings := 0, recommendations := [] }

/-- The ConfigMap key is absent from the in-use key set. -/
def unusedFlagB (pods : List Pod) (cm : ConfigMap) : Bool :=
  !((configMapsInUse pods).contains (cmKey cm.ns cm.name))

/-- The delete action corresponding to a recommendation. -/
def recToDelete (r : CleanupRecommendation) : DeleteAction :=
  { resourceType := r.resourceType, ns := r.ns, name := r.name }

/-- An Except value is a success. -/
def exceptIsOk {ε α : Type} : Except ε α → Bool
  | .ok _ => true
  | .error _ => false

/-! ## Fold lemmas for the cleanup loops -/

theorem emitAll_nil_fun {α β : Type} (l : List α) :
    emitAll (fun _ => ([] : List β)) l = [] := by
  induction l with
  | nil => rfl
  | cons x xs ih => simpa [emitAll] using ih

theorem emitAll_ite_singleton {α β : Type} (p : α → Bool) (g : α → β) (l : List α) :
    emitAll (fun x => if p x then [g x] else []) l = (l.filter p).map g := by
  induction l with
  | nil => rfl
  | cons x xs ih => cases h : p x <;> simp [emitAll, h, ih, List.filter_cons]

theorem emitAll_ite_nil {α β : Type} (p : α → Bool) (g : α → β) (l : List α) :
    emitAll (fun x => if p x then [] else [g x]) l =
      (l.filter (fun x => !(p x))).map g := by
  induction l with
  | nil => rfl
  | cons x xs ih => cases h : p x <;> simp [emitAll, h, ih, List.filter_cons]

theorem mem_emitAll {α β : Type} (g : α → List β) (l : List α) (b : β) :
    b ∈ emitAll g l ↔ ∃ a ∈ l, b ∈ g a := by
  induction l with
  | nil => simp [emitAll]
  | cons x xs ih => simp [emitAll, ih]

theorem foldl_list_field {α σ β : Type} (f : σ → α → σ) (proj : σ → List β)
    (g : α → List β) (hf : ∀ s x, proj (f s x) = proj s ++ g x) :
    ∀ (l : List α) (s : σ), proj (l.foldl f s) = proj s ++ emitAll g l := by
  intro l
  induction l with
  | nil => intro s; simp [emitAll]
  | cons x xs ih =>
    intro s
    simp only [List.foldl_cons, emitAll, ih, hf, List.append_assoc]

theorem foldl_nat_field {α σ : Type} (f : σ → α → σ) (proj : σ → Nat)
    (g : α → Nat) (hf : ∀ s x, proj (f s x) = proj s + g x) :
    ∀ (l : List α) (s : σ), proj (l.foldl f s) = proj s + (l.map g).sum := by
  intro l
  induction l with
  | nil => intro s; simp
  | cons x xs ih =>
    intro s
    simp only [List.foldl_cons, List.map_cons, List.sum_cons, ih, hf, Nat.add_assoc]

theorem configMapCleanupStep_recs (d : Bool) (now : Int)
    (de : DeleteAction → Option String) (inUse : List String)
    (r : CleanupRun) (cm : ConfigMap) :
    (configMapCleanupStep d now de inUse r cm).recommendations =
      r.recommendations ++
        (if inUse.contains (cmKey cm.ns cm.name) then [] else [mkConfigMapRec now cm]) := by
  unfold configMapCleanupStep
  split
  · simp
  · split <;> simp

theorem configMapCleanupStep_deletes (d : Bool) (now : Int)
    (de : DeleteAction → Option String) (inUse : List String)
    (r : CleanupRun) (cm : ConfigMap) :
    (configMapCleanupStep d now de inUse r cm).deletes =
      r.deletes ++
        (if inUse.contains (cmKey cm.ns cm.name) then []
         else if d then []
         else [{ resourceType := "ConfigMap", ns := cm.ns, name := cm.name }]) := by
  unfold configMapCleanupStep
  split
  · simp
  · split <;> simp

theorem podCleanupStep_recs (d : Bool) (now : Int)
    (de : DeleteAction → Option String) (r : CleanupRun) (p : Pod) :
    (podCleanupStep d now de r p).recommendations =
      r.recommendations ++ (if podStaleSpec now p then [mkPodRec now p] else []) := by
  by_cases hph : (p.phase == PodPhase.failed || p.phase == PodPhase.succeeded : Bool) <;>
    by_cases hage : now - p.creationTimestamp > sevenDays <;>
      by_cases hd : d <;>
        simp [podCleanupStep, podStaleSpec, hph, hage, hd]

theorem podCleanupStep_deletes (d : Bool) (now : Int)
    (de : DeleteAction → Option String) (r : CleanupRun) (p : Pod) :
    (podCleanupStep d now de r p).deletes =
      r.deletes ++
        (if podStaleSpec now p then
          (if d then [] else [{ resourceType := "Pod", ns := p.ns, name := p.name }])
         else []) := by
  by_cases hph : (p.phase == PodPhase.failed || p.phase == PodPhase.succeeded : Bool) <;>
    by_cases hage : now - p.creationTimestamp > sevenDays <;>
      by_cases hd : d <;>
        simp [podCleanupStep, podStaleSpec, hph, hage, hd]

theorem cleanupCore_recommendations (cms : List ConfigMap) (pods : List Pod)
    (d : Bool) (now : Int) (de : DeleteAction → Option String) :
    (CleanupUnusedResourcesCore cms pods d now de).recommendations =
      (cms.filter (unusedFlagB pods)).map (mkConfigMapRec now) ++
        (pods.filter (podStaleSpec now)).map (mkPodRec now) := by
  unfold CleanupUnusedResourcesCore
  rw [show ∀ r : CleanupRun, ({ r with returned := [] } : CleanupRun).recommendations
        = r.recommendations from fun _ => rfl]
  rw [foldl_list_field (podCleanupStep d now de) (fun r => r.recommendations)
    (fun p => if podStaleSpec now p then [mkPodRec now p] else [])
    (fun r p => podCleanupStep_recs d now de r p)]
  rw [foldl_list_field (configMapCleanupStep d now de (configMapsInUse pods))
    (fun r => r.recommendations)
    (fun cm => if (configMapsInUse pods).contains (cmKey cm.ns cm.name) then []
      else [mkConfigMapRec now cm])
    (fun r cm => configMapCleanupStep_recs d now de (configMapsInUse pods) r cm)]
  rw [emitAll_ite_singleton, emitAll_ite_nil]
  rfl

theorem cleanupCore_deletes_dryRun (cms : List ConfigMap) (pods : List Pod)
    (now : Int) (de : DeleteAction → Option String) :
    (CleanupUnusedResourcesCore cms pods true now de).deletes = [] := by
  unfold CleanupUnusedResourcesCore
  rw [show ∀ r : CleanupRun, ({ r with returned := [] } : CleanupRun).deletes
        = r.deletes from fun _ => rfl]
  rw [foldl_list_field (podCleanupStep true now de) (fun r => r.deletes)
    (fun p => if podStaleSpec now p then
      (if true then [] else [{ resourceType := "Pod", ns := p.ns, name := p.name }]) else [])
    (fun r p => podCleanupStep_deletes true now de r p)]
  rw [foldl_list_field (configMapCleanupStep true now de (configMapsInUse pods))
    (fun r => r.deletes)
    (fun cm => if (configMapsInUse pods).contains (cmKey cm.ns cm.name) then []
      else if true then []
      else [{ resourceType := "ConfigMap", ns := cm.ns, name := cm.name }])
    (fun r cm => configMapCleanupStep_deletes true now de (configMapsInUse pods) r cm)]
  simp [emitAll_nil_fun]

theorem cleanupCore_deletes_apply (cms : List ConfigMap) (pods : List Pod)
    (now : Int) (de : DeleteAction → Option String) :
    (CleanupUnusedResourcesCore cms pods false now de).deletes =
      (cms.filter (unusedFlagB pods)).map
          (fun cm => { resourceType := "ConfigMap", ns := cm.ns, name := cm.name }) ++
        (pods.filter (podStaleSpec now)).map
          (fun p => { resourceType := "Pod", ns := p.ns, name := p.name }) := by
  unfold CleanupUnusedResourcesCore
  rw [show ∀ r : CleanupRun, ({ r with returned := [] } : CleanupRun).deletes
        = r.deletes from fun _ => rfl]
  rw [foldl_list_field (podCleanupStep false now de) (fun r => r.deletes)
    (fun p => if podStaleSpec now p then
      (if false then [] else [{ resourceType := "Pod", ns := p.ns, name := p.name }]) else [])
    (fun r p => podCleanupStep_deletes false now de r p)]
  rw [foldl_list_field (configMapCleanupStep false now de (configMapsInUse pods))
    (fun r => r.deletes)
    (fun cm => if (configMapsInUse pods).contains (cmKey cm.ns cm.name) then []
      else if false then []
      else [{ resourceType := "ConfigMap", ns := cm.ns, name := cm.name }])
    (fun r cm => configMapCleanupStep_deletes false now de (configMapsInUse pods) r cm)]
  simp only [Bool.false_eq_true, if_false]
  rw [emitAll_ite_singleton, emitAll_ite_nil]
  rfl

theorem cleanupCore_returned (cms : List ConfigMap) (pods : List Pod)
    (d : Bool) (now : Int) (de : DeleteAction → Option String) :
    (CleanupUnusedResourcesCore cms pods d now de).returned = [] := rfl

/-! ## Claim theorems -/

/-- A ConfigMap referenced by no pod, used as a concrete cleanup input. -/
def exampleConfigMap : ConfigMap := { ns := "default", name := "cm1", creationTimestamp := 0 }

/-- C1: the claim requires CleanupUnusedResources to return every flagged
resource exactly once and, in apply mode, to return exactly the acted-upon
set. The code violates this: on a cluster holding one ConfigMap referenced
by no pod, the function computes the recommendation for it exactly once
but returns the empty list, in dry-run mode and in apply mode alike, while
apply mode still attempts the deletion of the flagged ConfigMap. -/
theorem cleanup_flags_configmap_but_returns_empty :
    (CleanupUnusedResourcesCore [exampleConfigMap] [] true 1000
        (fun _ => none)).recommendations = [mkConfigMapRec 1000 exampleConfigMap] ∧
      (CleanupUnusedResourcesCore [exampleConfigMap] [] true 1000 (fun _ => none)).returned = [] ∧
      CleanupUnusedResources (.ok [exampleConfigMap]) (.ok []) true 1000 (fun _ => none) =
        .ok (CleanupUnusedResourcesCore [exampleConfigMap] [] true 1000 (fun _ => none)) ∧
      (CleanupUnusedResourcesCore [exampleConfigMap] [] false 1000 (fun _ => none)).deletes =
        [{ resourceType := "ConfigMap", ns := "default", name := "cm1" }] ∧
      (CleanupUnusedResourcesCore [exampleConfigMap] [] false 1000 (fun _ => none)).returned
        = [] :=
  ⟨rfl, rfl, rfl, rfl, rfl⟩

/-- C4: with dryRun true the cleanup issues no delete call, so the cluster
state is unchanged, and a second run against that unchanged state produces
the identical CleanupRun, in particular identical recommendation sets. -/
theorem cleanup_dry_run_no_deletes_and_idempotent (cms : List ConfigMap)
    (pods : List Pod) (now : Int) (de : DeleteAction → Option String) :
    (CleanupUnusedResourcesCore cms pods true now de).deletes = [] ∧
      applyDeletes { configMaps := cms, pods := pods } de
          (CleanupUnusedResourcesCore cms pods true now de).deletes =
        { configMaps := cms, pods := pods } ∧
      CleanupUnusedResourcesCore
          (applyDeletes { configMaps := cms, pods := pods } de
            (CleanupUnusedResourcesCore cms pods true now de).deletes).configMaps
          (applyDeletes { configMaps := cms, pods := pods } de
            (CleanupUnusedResourcesCore cms pods true now de).deletes).pods
          true now de =
        CleanupUnusedResourcesCore cms pods true now de := by
  have hd := cleanupCore_deletes_dryRun cms pods now de
  refine ⟨hd, ?_, ?_⟩ <;> rw [hd] <;> rfl

/-- C6: the claim requires a non-empty recommendation list whenever some
node or pod sits below the low-utilization threshold. The code violates
this for every snapshot: GenerateOptimizationReport returns a report with
zero savings and an empty recommendation list unconditionally. -/
theorem optimization_report_always_empty (s : ClusterState) :
    GenerateOptimizationReport s =
      .ok { potentialSavings := 0, recommendations := [] } := rfl

/-- C7: in apply mode the attempted delete set does not depend on which
individual deletions fail, every flagged resource gets its deletion
attempted (the attempted set is exactly the recommendation set mapped to
delete actions), and the call returns without error for every outcome
oracle. -/
theorem cleanup_apply_attempts_all_and_returns_ok (cms : List ConfigMap)
    (pods : List Pod) (now : Int) (de de2 : DeleteAction → Option String) :
    exceptIsOk (CleanupUnusedResources (.ok cms) (.ok pods) false now de) = true ∧
      (CleanupUnusedResourcesCore cms pods false now de).deletes =
        (CleanupUnusedResourcesCore cms pods false now de2).deletes ∧
      (CleanupUnusedResourcesCore cms pods false now de).deletes =
        (CleanupUnusedResourcesCore cms pods false now de).recommendations.map recToDelete := by
  refine ⟨rfl, ?_, ?_⟩
  · rw [cleanupCore_deletes_apply, cleanupCore_deletes_apply]
  · rw [cleanupCore_deletes_apply, cleanupCore_recommendations, List.map_append,
      List.map_map, List.map_map]
    rfl

/-! ## Health evaluation outcome (C2, C9) -/

/-- Network inputs with every call succeeding on an empty cluster. -/
def emptyNetInputs : NetworkInputs :=
  { cniPods := .ok [], corednsPods := .ok [], services := .ok [],
    endpointsOf := fun _ _ => .ok 1,
    ingressControllers := .ok [], networkPolicyCount := .ok 0 }

/-- Health inputs with every call succeeding on an empty cluster. -/
def witnessHealthInputs : HealthInputs :=
  { nodes := .ok [], pods := .ok [], apiCallOk := true, apiCallDurationNs := 0,
    kubeSystemPods := .ok [], network := emptyNetInputs,
    resourceUsageRes := .ok emptyResourceUsage,
    componentStatusesRes := .ok [], namespaceHealthRes := .ok [] }

/-- C2: provided the network check does not hit its nil-pointer panic (the
only way the evaluation can crash, settled separately under C10),
GetClusterHealth returns an error exactly when the node list or the pod
list fails — with no result produced in that case — and every failing
secondary check still leaves a produced ClusterHealth result. -/
theorem getClusterHealth_error_iff_list_failure (inp : HealthInputs) (now : Int)
    (hnet : (checkNetworkHealth inp.network).isSome = true) :
    ((∃ e, GetClusterHealth inp now = some (.error e)) ↔
        (exceptIsOk inp.nodes = false ∨ exceptIsOk inp.pods = false)) ∧
      (exceptIsOk inp.nodes = true → exceptIsOk inp.pods = true →
        ∃ h, GetClusterHealth inp now = some (.ok h)) := by
  obtain ⟨net, hnet2⟩ := Option.isSome_iff_exists.mp hnet
  cases hn : inp.nodes with
  | error e =>
    refine ⟨⟨fun _ => Or.inl rfl,
      fun _ => ⟨"node health check failed: failed to list nodes: " ++ e,
        by simp [GetClusterHealth, hn]⟩⟩, ?_⟩
    intro h1 _
    exact absurd h1 (by simp [exceptIsOk])
  | ok nodes =>
    cases hp : inp.pods with
    | error e =>
      refine ⟨⟨fun _ => Or.inr rfl,
        fun _ => ⟨"pod health check failed: failed to list pods: " ++ e,
          by simp [GetClusterHealth, hn, hp]⟩⟩, ?_⟩
      intro _ h2
      exact absurd h2 (by simp [exceptIsOk])
    | ok pods =>
      have hex : ∃ h, GetClusterHealth inp now = some (.ok h) := by
        simp only [GetClusterHealth, hn, hp, hnet2]
        exact ⟨_, rfl⟩
      refine ⟨⟨?_, ?_⟩, fun _ _ => hex⟩
      · rintro ⟨e, he⟩
        obtain ⟨h, hh⟩ := hex
        rw [hh] at he
        exact absurd he (by simp)
      · rintro (h1 | h2)
        · exact absurd h1 (by simp [exceptIsOk])
        · exact absurd h2 (by simp [exceptIsOk])

/-- Witness for C2: the theorem applied to the all-successful empty-cluster
inputs, its no-panic hypothesis holding by computation. -/
theorem getClusterHealth_error_iff_list_failure_witness :
    ((∃ e, GetClusterHealth witnessHealthInputs 0 = some (.error e)) ↔
        (exceptIsOk witnessHealthInputs.nodes = false ∨
          exceptIsOk witnessHealthInputs.pods = false)) ∧
      (exceptIsOk witnessHealthInputs.nodes = true →
        exceptIsOk witnessHealthInputs.pods = true →
        ∃ h, GetClusterHealth witnessHealthInputs 0 = some (.ok h)) :=
  getClusterHealth_error_iff_list_failure witnessHealthInputs 0 rfl

/-- Health score of a finished evaluation, when one was produced. -/
def healthScoreOf : Option (Except String ClusterHealth) → Option Int
  | some (.ok h) => some h.healthScore
  | _ => none

/-- The produced score, when one was produced, lies between 0 and 100. -/
def scoreWithinRange : Option (Except String ClusterHealth) → Prop
  | some (.ok h) => 0 ≤ h.healthScore ∧ h.healthScore ≤ 100
  | _ => True

/-- C9: whenever health evaluation succeeds the composite score lies in the
interval from 0 to 100 (the spec-modelled scoring clamps it there), and two
evaluations of identical snapshot inputs — even at different wall-clock
times — produce identical scores. -/
theorem health_score_range_and_deterministic (inp : HealthInputs) (now1 now2 : Int) :
    scoreWithinRange (GetClusterHealth inp now1) ∧
      healthScoreOf (GetClusterHealth inp now1) =
        healthScoreOf (GetClusterHealth inp now2) := by
  have hrange : ∀ (h : ClusterHealth),
      0 ≤ calculateHealthScore h ∧ calculateHealthScore h ≤ 100 := by
    intro h
    unfold calculateHealthScore
    exact ⟨le_min (by norm_num) (le_max_left 0 _), min_le_left _ _⟩
  cases hn : inp.nodes with
  | error e => simp [GetClusterHealth, hn, scoreWithinRange, healthScoreOf]
  | ok nodes =>
    cases hp : inp.pods with
    | error e => simp [GetClusterHealth, hn, hp, scoreWithinRange, healthScoreOf]
    | ok pods =>
      cases hnet : checkNetworkHealth inp.network with
      | none => simp [GetClusterHealth, hn, hp, hnet, scoreWithinRange, healthScoreOf]
      | some net =>
        constructor
        · simp only [GetClusterHealth, hn, hp, hnet, scoreWithinRange]
          exact hrange _
        · simp only [GetClusterHealth, hn, hp, hnet, healthScoreOf]
          rfl

/-! ## Ingress nil-pointer reachability (C10) -/

/-- A deployment that is not ready (0 of 1 replicas), breaking the loop. -/
def readyShortDeployment : Deployment := { replicas := some 1, readyReplicas := 0 }

/-- A deployment whose Replicas pointer is unset. -/
def nilReplicasDeployment : Deployment := { replicas := none, readyReplicas := 0 }

/-- Network inputs whose non-empty ingress list carries a nil-Replicas
deployment placed after a not-ready one. -/
def breakBeforeNilInputs : NetworkInputs :=
  { cniPods := .ok [], corednsPods := .ok [], services := .ok [],
    endpointsOf := fun _ _ => .ok 1,
    ingressControllers := .ok [readyShortDeployment, nilReplicasDeployment],
    networkPolicyCount := .ok 0 }

/-- C10 counterexample: on a cluster state whose ingress-controller list is
non-empty and contains a deployment with Replicas unset, checkNetworkHealth
nevertheless completes without panic, because the loop breaks at an earlier
deployment whose ready replicas fall short — refuting the claimed
for-every-such-state panic. -/
theorem network_check_completes_despite_nil_replicas :
    (checkNetworkHealth breakBeforeNilInputs).isSome = true ∧
      (match breakBeforeNilInputs.ingressControllers with
       | .ok deps => !deps.isEmpty && deps.any (fun d => d.replicas.isNone)
       | .error _ => false) = true :=
  ⟨rfl, rfl⟩

theorem ingressLoop_none_iff (deps : List Deployment) :
    ingressLoop deps = none ↔
      ∃ pre d post, deps = pre ++ d :: post ∧ d.replicas = none ∧
        ∀ e ∈ pre, ∃ r, e.replicas = some r ∧ r ≤ e.readyReplicas := by
  induction deps with
  | nil =>
    simp only [ingressLoop]
    constructor
    · intro h
      exact Option.noConfusion h
    · rintro ⟨pre, d, post, heq, -, -⟩
      exact List.noConfusion (List.append_eq_nil.mp heq.symm).2
  | cons a rest ih =>
    cases ha : a.replicas with
    | none =>
      simp only [ingressLoop, ha]
      constructor
      · intro _
        exact ⟨[], a, rest, rfl, ha, by intro e he; exact absurd he (List.not_mem_nil e)⟩
      · intro _
        trivial
    | some r =>
      by_cases hlt : a.readyReplicas < r
      · simp only [ingressLoop, ha, if_pos hlt]
        constructor
        · intro h
          exact Option.noConfusion h
        · rintro ⟨pre, d, post, heq, hnone, hpre⟩
          cases pre with
          | nil =>
            simp only [List.nil_append, List.cons.injEq] at heq
            rw [heq.1] at ha
            rw [ha] at hnone
            exact Option.noConfusion hnone
          | cons p pre2 =>
            simp only [List.cons_append, List.cons.injEq] at heq
            obtain ⟨hap, -⟩ := heq
            subst hap
            obtain ⟨r0, hr0, hle⟩ := hpre a (List.mem_cons_self a pre2)
            rw [ha] at hr0
            have hrr : r = r0 := Option.some.inj hr0
            rw [← hrr] at hle
            exact absurd hlt (not_lt.mpr hle)
      · simp only [ingressLoop, ha, if_neg hlt]
        rw [ih]
        constructor
        · rintro ⟨pre, d, post, heq, hnone, hpre⟩
          refine ⟨a :: pre, d, post, by rw [heq, List.cons_append], hnone, ?_⟩
          intro e he
          rcases List.mem_cons.mp he with he1 | he2
          · exact ⟨r, he1 ▸ ha, he1 ▸ not_lt.mp hlt⟩
          · exact hpre e he2
        · rintro ⟨pre, d, post, heq, hnone, hpre⟩
          cases pre with
          | nil =>
            simp only [List.nil_append, List.cons.injEq] at heq
            rw [heq.1] at ha
            rw [ha] at hnone
            exact Option.noConfusion hnone
          | cons p pre2 =>
            simp only [List.cons_append, List.cons.injEq] at heq
            exact ⟨pre2, d, post, heq.2, hnone,
              fun e he => hpre e (List.mem_cons_of_mem p he)⟩

/-- C10 amended: checkNetworkHealth panics exactly when the ingress list
call succeeded and scanning the returned deployments in order reaches one
with Replicas unset — that is, some deployment has Replicas unset and every
deployment before it has Replicas set with ReadyReplicas at least Replicas;
on every other input (including any list where a not-ready deployment
precedes the first nil Replicas pointer) the function completes. -/
theorem network_check_panic_characterization (inp : NetworkInputs) :
    (checkNetworkHealth inp = none) ↔
      ∃ deps pre d post, inp.ingressControllers = .ok deps ∧
        deps = pre ++ d :: post ∧ d.replicas = none ∧
        ∀ e ∈ pre, ∃ r, e.replicas = some r ∧ r ≤ e.readyReplicas := by
  unfold checkNetworkHealth
  cases hic : inp.ingressControllers with
  | error e => simp [hic]
  | ok deps =>
    by_cases hemp : deps.isEmpty
    · have hnil : deps = [] := List.isEmpty_iff.mp hemp
      subst hnil
      simp only [hic, List.isEmpty_nil, if_true]
      constructor
      · intro h
        exact Option.noConfusion h
      · rintro ⟨deps2, pre, d, post, hok, heq, -, -⟩
        rw [← Except.ok.inj hok] at heq
        exact List.noConfusion (List.append_eq_nil.mp heq.symm).2
    · have hemp2 : deps.isEmpty = false := by simpa using hemp
      simp only [hic, hemp2, Bool.false_eq_true, if_false]
      cases hl : ingressLoop deps with
      | none =>
        simp only [hl]
        constructor
        · intro _
          obtain ⟨pre, d, post, heq, hnone, hpre⟩ := (ingressLoop_none_iff deps).mp hl
          exact ⟨deps, pre, d, post, rfl, heq, hnone, hpre⟩
        · intro _
          trivial
      | some b =>
        simp only [hl]
        constructor
        · intro h
          exact Option.noConfusion h
        · rintro ⟨deps2, pre, d, post, hok, heq, hnone, hpre⟩
          have hd2 : deps2 = deps := (Except.ok.inj hok).symm
          have hnone2 : ingressLoop deps = none :=
            (ingressLoop_none_iff deps).mpr ⟨pre, d, post, hd2 ▸ heq, hnone, hpre⟩
          rw [hl] at hnone2
          exact Option.noConfusion hnone2

/-! ## Composite-key injectivity and the C3 correspondence -/

theorem slashFree_not_mem {s : String} (h : slashFree s = true) : ('/') ∉ s.data := by
  simp only [slashFree, Bool.not_eq_true', ← Bool.not_eq_true] at h
  intro hm
  exact h (List.elem_iff.mpr hm)

theorem append_slash_cancel :
    ∀ {l1 l2 r1 r2 : List Char}, ('/') ∉ l1 → ('/') ∉ l2 →
      l1 ++ '/' :: r1 = l2 ++ '/' :: r2 → l1 = l2 ∧ r1 = r2 := by
  intro l1
  induction l1 with
  | nil =>
    intro l2 r1 r2 _ h2 h
    cases l2 with
    | nil => simpa using h
    | cons b bs =>
      exfalso
      simp only [List.nil_append, List.cons_append, List.cons.injEq] at h
      exact h2 (h.1 ▸ List.mem_cons_self b bs)
  | cons a as ih =>
    intro l2 r1 r2 h1 h2 h
    cases l2 with
    | nil =>
      exfalso
      simp only [List.nil_append, List.cons_append, List.cons.injEq] at h
      exact h1 (h.1 ▸ List.mem_cons_self a as)
    | cons b bs =>
      simp only [List.cons_append, List.cons.injEq] at h
      have hrec := ih (fun hm => h1 (List.mem_cons_of_mem a hm))
        (fun hm => h2 (List.mem_cons_of_mem b hm)) h.2
      exact ⟨by rw [h.1, hrec.1], hrec.2⟩

theorem cmKey_data (a b : String) :
    (cmKey a b).data = a.data ++ '/' :: b.data := by
  show ((a ++ "/") ++ b).data = a.data ++ '/' :: b.data
  rw [String.data_append, String.data_append, List.append_assoc]
  rfl

theorem cmKey_inj {a c : String} (ha : slashFree a = true) (hc : slashFree c = true)
    {b d : String} (h : cmKey a b = cmKey c d) : a = c ∧ b = d := by
  have hdata : a.data ++ '/' :: b.data = c.data ++ '/' :: d.data := by
    have := congrArg String.data h
    rwa [cmKey_data, cmKey_data] at this
  have hsplit := append_slash_cancel (slashFree_not_mem ha) (slashFree_not_mem hc) hdata
  exact ⟨String.ext hsplit.1, String.ext hsplit.2⟩

theorem volume_match_eq_true (v : Volume) (n : String) :
    ((match v.configMap with
      | some src => src.name == n
      | none => false) = true) ↔ ∃ s, v.configMap = some s ∧ s.name = n := by
  cases v.configMap <;> simp

theorem env_match_eq_true (e : EnvVar) (n : String) :
    ((match e.valueFrom with
      | some vf =>
        match vf.configMapKeyRef with
        | some r => r.name == n
        | none => false
      | none => false) = true) ↔
      ∃ vf, e.valueFrom = some vf ∧ ∃ r, vf.configMapKeyRef = some r ∧ r.name = n := by
  cases hv : e.valueFrom with
  | none => simp [hv]
  | some vf => cases hr : vf.configMapKeyRef <;> simp [hv, hr]

theorem mem_referencedNames (p : Pod) (n : String) :
    n ∈ podReferencedConfigMapNames p ↔
      (podMountsConfigMap p n || podEnvRefsConfigMap p n) = true := by
  simp only [podReferencedConfigMapNames, List.mem_append, List.mem_filterMap,
    mem_emitAll, Option.map_eq_some', Option.bind_eq_some, podMountsConfigMap,
    podEnvRefsConfigMap, Bool.or_eq_true, List.any_eq_true, volume_match_eq_true,
    env_match_eq_true]

theorem podKeys_contains_iff (p : Pod) (cm : ConfigMap)
    (hcm : slashFree cm.ns = true) (hp : slashFree p.ns = true) :
    (podConfigMapKeys p).contains (cmKey cm.ns cm.name) =
      (p.ns == cm.ns && (podMountsConfigMap p cm.name || podEnvRefsConfigMap p cm.name)) := by
  rw [Bool.eq_iff_iff]
  constructor
  · intro hk
    have hmem : cmKey cm.ns cm.name ∈ podConfigMapKeys p := List.elem_iff.mp hk
    rcases List.mem_map.mp hmem with ⟨n, hn, hkey⟩
    obtain ⟨hns, hname⟩ := cmKey_inj hp hcm hkey
    rw [Bool.and_eq_true, beq_iff_eq]
    exact ⟨hns, (mem_referencedNames p cm.name).mp (hname ▸ hn)⟩
  · intro h
    rw [Bool.and_eq_true, beq_iff_eq] at h
    apply List.elem_iff.mpr
    apply List.mem_map.mpr
    exact ⟨cm.name, (mem_referencedNames p cm.name).mpr h.2, by rw [h.1]⟩

theorem contains_string_append (l1 l2 : List String) (k : String) :
    (l1 ++ l2).contains k = (l1.contains k || l2.contains k) := by
  rw [Bool.eq_iff_iff]
  simp [List.elem_iff]

theorem inUse_contains_iff (pods : List Pod) (cm : ConfigMap)
    (hcm : slashFree cm.ns = true) (hp : ∀ p ∈ pods, slashFree p.ns = true) :
    (configMapsInUse pods).contains (cmKey cm.ns cm.name) =
      pods.any (fun p => p.ns == cm.ns &&
        (podMountsConfigMap p cm.name || podEnvRefsConfigMap p cm.name)) := by
  induction pods with
  | nil => rfl
  | cons p ps ih =>
    have h1 : configMapsInUse (p :: ps) = podConfigMapKeys p ++ configMapsInUse ps := rfl
    rw [h1, contains_string_append, List.any_cons,
      podKeys_contains_iff p cm hcm (hp p (List.mem_cons_self p ps)),
      ih (fun q hq => hp q (List.mem_cons_of_mem p hq))]

/-- C3: on every cluster whose namespaces contain no slash (as Kubernetes
namespaces cannot), the ConfigMaps flagged for cleanup (the computed
recommendation and acted-upon set; the returned list is empty per the C1
bug) are exactly the ConfigMaps that no pod in their namespace references
via a volume mount or an environment-variable source. -/
theorem cleanup_flagged_configmaps_match_spec (cms : List ConfigMap)
    (pods : List Pod) (d : Bool) (now : Int) (de : DeleteAction → Option String)
    (hcm : ∀ cm ∈ cms, slashFree cm.ns = true)
    (hp : ∀ p ∈ pods, slashFree p.ns = true) :
    ((CleanupUnusedResourcesCore cms pods d now de).recommendations.filter
        (fun r => r.resourceType == "ConfigMap")) =
      (cms.filter (configMapUnusedSpec pods)).map (mkConfigMapRec now) := by
  rw [cleanupCore_recommendations, List.filter_append]
  have h1 : ((cms.filter (unusedFlagB pods)).map (mkConfigMapRec now)).filter
      (fun r => r.resourceType == "ConfigMap") =
        (cms.filter (unusedFlagB pods)).map (mkConfigMapRec now) := by
    rw [List.filter_map]
    simp [Function.comp, mkConfigMapRec]
  have h2 : ((pods.filter (podStaleSpec now)).map (mkPodRec now)).filter
      (fun r => r.resourceType == "ConfigMap") = [] := by
    rw [List.filter_map]
    simp [Function.comp, mkPodRec]
  rw [h1, h2, List.append_nil]
  congr 1
  apply List.filter_congr
  intro cm hmem
  unfold unusedFlagB configMapUnusedSpec
  rw [inUse_contains_iff pods cm (hcm cm hmem) hp]

/-- Concrete cluster for the C3 witness: cm1 is referenced by a pod volume,
cm2 by nothing. -/
def witnessPod : Pod :=
  { ns := "default", name := "p1", nodeName := "n1", phase := .running,
    creationTimestamp := 0,
    volumes := [{ configMap := some { name := "cm1" } }],
    containers := [], containerStatuses := [] }

/-- First ConfigMap of the C3 witness cluster, referenced by the pod. -/
def witnessConfigMap1 : ConfigMap := { ns := "default", name := "cm1", creationTimestamp := 0 }

/-- Second ConfigMap of the C3 witness cluster, referenced by no pod. -/
def witnessConfigMap2 : ConfigMap := { ns := "default", name := "cm2", creationTimestamp := 0 }

/-- Witness for C3: on the concrete two-ConfigMap cluster the theorem
applies, its slash-freedom hypotheses holding by computation. -/
theorem cleanup_flagged_configmaps_match_spec_witness :
    ((CleanupUnusedResourcesCore [witnessConfigMap1, witnessConfigMap2] [witnessPod]
        true 1000 (fun _ => none)).recommendations.filter
          (fun r => r.resourceType == "ConfigMap")) =
      ([witnessConfigMap1, witnessConfigMap2].filter
          (configMapUnusedSpec [witnessPod])).map (mkConfigMapRec 1000) :=
  cleanup_flagged_configmaps_match_spec [witnessConfigMap1, witnessConfigMap2]
    [witnessPod] true 1000 (fun _ => none) (by decide) (by decide)

/-! ## Pod health counting (C5) -/

/-- The container status is waiting with reason CrashLoopBackOff. -/
def isCrashLoopingB (cs : ContainerStatus) : Bool :=
  match cs.state.waiting with
  | some w => w.reason == "CrashLoopBackOff"
  | none => false

/-- Number of container statuses of the pod with restart count above 5. -/
def restartExceedances (p : Pod) : Nat :=
  ((p.containerStatuses.filter (fun cs => decide (cs.restartCount > 5))).length)

/-- One crash-loop list entry (the namespaced pod key) per crash-looping
container status of the pod. -/
def crashLoopEntries (p : Pod) : List String :=
  ((p.containerStatuses.filter isCrashLoopingB).map (fun _ => cmKey p.ns p.name))

theorem sum_map_ite_one {α : Type} (q : α → Prop) [DecidablePred q] (l : List α) :
    (l.map (fun x => if q x then 1 else 0)).sum =
      (l.filter (fun x => decide (q x))).length := by
  induction l with
  | nil => rfl
  | cons x xs ih =>
    by_cases h : q x <;> simp [h, ih, List.filter_cons, Nat.add_comm]

theorem podContainerStep_restarting (k : String) (s : PodHealthStatus)
    (cs : ContainerStatus) :
    (podContainerStep k s cs).restartingPods =
      s.restartingPods + (if cs.restartCount > 5 then 1 else 0) := by
  unfold podContainerStep
  cases hw : cs.state.waiting <;> by_cases h5 : cs.restartCount > 5 <;>
    simp only [hw, h5] <;> (try split) <;> simp

theorem podContainerStep_crash (k : String) (s : PodHealthStatus)
    (cs : ContainerStatus) :
    (podContainerStep k s cs).crashLoopingPods =
      s.crashLoopingPods ++ (if isCrashLoopingB cs then [k] else []) := by
  unfold podContainerStep isCrashLoopingB
  cases hw : cs.state.waiting <;> by_cases h5 : cs.restartCount > 5 <;>
    simp only [hw, h5] <;> (try split) <;> simp

theorem checkPodHealthStep_restarting (s : PodHealthStatus) (p : Pod) :
    (checkPodHealthStep s p).restartingPods =
      s.restartingPods + restartExceedances p := by
  unfold checkPodHealthStep
  rw [foldl_nat_field (podContainerStep (cmKey p.ns p.name))
    (fun s => s.restartingPods) (fun cs => if cs.restartCount > 5 then 1 else 0)
    (podContainerStep_restarting (cmKey p.ns p.name))]
  rw [restartExceedances, ← sum_map_ite_one (fun cs : ContainerStatus => cs.restartCount > 5)]
  congr 1
  cases p.phase <;> by_cases hn : (p.nodeName == "" : Bool) <;> simp [hn]

theorem checkPodHealthStep_crash (s : PodHealthStatus) (p : Pod) :
    (checkPodHealthStep s p).crashLoopingPods =
      s.crashLoopingPods ++ crashLoopEntries p := by
  unfold checkPodHealthStep
  rw [foldl_list_field (podContainerStep (cmKey p.ns p.name))
    (fun s => s.crashLoopingPods)
    (fun cs => if isCrashLoopingB cs then [cmKey p.ns p.name] else [])
    (podContainerStep_crash (cmKey p.ns p.name))]
  rw [emitAll_ite_singleton, crashLoopEntries]
  congr 1
  cases p.phase <;> by_cases hn : (p.nodeName == "" : Bool) <;> simp [hn]

theorem checkPodHealthCore_restarting (pods : List Pod) :
    (checkPodHealthCore pods).restartingPods = (pods.map restartExceedances).sum := by
  unfold checkPodHealthCore
  rw [foldl_nat_field checkPodHealthStep (fun s => s.restartingPods)
    restartExceedances checkPodHealthStep_restarting]
  simp

theorem checkPodHealthCore_crash (pods : List Pod) :
    (checkPodHealthCore pods).crashLoopingPods = emitAll crashLoopEntries pods := by
  unfold checkPodHealthCore
  rw [foldl_list_field checkPodHealthStep (fun s => s.crashLoopingPods)
    crashLoopEntries checkPodHealthStep_crash]
  rfl

/-- A pod with two containers above the restart threshold, both crash
looping, used as the C5 counterexample input. -/
def doubleRestartPod : Pod :=
  { ns := "default", name := "p1", nodeName := "", phase := .running,
    creationTimestamp := 0, volumes := [], containers := [],
    containerStatuses :=
      [{ restartCount := 6, state := { waiting := some { reason := "CrashLoopBackOff" } } },
       { restartCount := 7, state := { waiting := some { reason := "CrashLoopBackOff" } } }] }

/-- C5 counterexample: on a single pod with two containers whose restart
counts exceed 5, checkPodHealth reports restartingPods = 2 although only
one pod has such a container, and the crash-looping list carries the same
pod twice, one entry per crash-looping container — refuting the claim that
each such pod is counted once and contributes exactly one entry. -/
theorem pod_health_counts_counterexample :
    (checkPodHealthCore [doubleRestartPod]).restartingPods = 2 ∧
      ([doubleRestartPod].filter
        (fun p => p.containerStatuses.any (fun cs => decide (cs.restartCount > 5)))).length
        = 1 ∧
      (checkPodHealthCore [doubleRestartPod]).restartingPods ≠
        ([doubleRestartPod].filter
          (fun p => p.containerStatuses.any
            (fun cs => decide (cs.restartCount > 5)))).length ∧
      (checkPodHealthCore [doubleRestartPod]).crashLoopingPods =
        [cmKey ("default") ("p1"), cmKey ("default") ("p1")] := by
  refine ⟨rfl, rfl, ?_, rfl⟩
  decide

/-- C5 amended: the restarting counter equals the number of pod-container
pairs whose restart count exceeds 5 (a pod with several such containers is
counted once per container), and the crash-looping list carries one entry
per container status waiting with reason CrashLoopBackOff, each entry being
the namespaced key of its pod. -/
theorem pod_health_counts_per_container (pods : List Pod) :
    (checkPodHealthCore pods).restartingPods = (pods.map restartExceedances).sum ∧
      (checkPodHealthCore pods).crashLoopingPods = emitAll crashLoopEntries pods :=
  ⟨checkPodHealthCore_restarting pods, checkPodHealthCore_crash pods⟩

/-- C8: the pods flagged as stale by the cleanup are exactly the pods whose
phase is Failed or Succeeded and whose age exceeds the seven-day retention
threshold, each flagged once, in list order. -/
theorem cleanup_flagged_stale_pods_match_spec (cms : List ConfigMap)
    (pods : List Pod) (d : Bool) (now : Int) (de : DeleteAction → Option String) :
    ((CleanupUnusedResourcesCore cms pods d now de).recommendations.filter
        (fun r => r.resourceType == "Pod")) =
      (pods.filter (podStaleSpec now)).map (mkPodRec now) := by
  rw [cleanupCore_recommendations, List.filter_append]
  have h1 : ((cms.filter (unusedFlagB pods)).map (mkConfigMapRec now)).filter
      (fun r => r.resourceType == "Pod") = [] := by
    rw [List.filter_map]
    simp [Function.comp, mkConfigMapRec]
  have h2 : ((pods.filter (podStaleSpec now)).map (mkPodRec now)).filter
      (fun r => r.resourceType == "Pod") =
        (pods.filter (podStaleSpec now)).map (mkPodRec now) := by
    rw [List.filter_map]
    simp [Function.comp, mkPodRec]
  rw [h1, h2, List.nil_append]

end KubeHC
